import Mathlib

/-!
Verification development for the metadata-agent scheduling core.

The embedded program consists of two source files:
* `src/logging.h` — `LogStream`, a mutex-protected append-only text sink
  over a swappable `std::ostream` target, and the `Logger::Severity` enum;
* `src/updater.cc` — `MetadataUpdater::Start`/`NotifyStop` (the lifecycle
  driver) and `PollingMetadataUpdater` (validation hooks, the
  `std::timed_mutex` cancellation primitive `timer_`, and the worker loop
  `PollForMetadata`).

Modelling conventions:
* Wall-clock instants and durations are drawn from an arbitrary linearly
  ordered additive commutative group `T` (the C++ code uses
  `std::chrono::high_resolution_clock` time points and a `duration<double>`
  period; `ℚ` and `ℝ` are instances, and witnesses instantiate `T := ℤ`).
* The polling period held by the updater object is modelled as `ℚ`
  (exact arithmetic over the `double` values the code compares to zero).
* The `timer_` timed mutex is a `Bool` (`true` = locked/`Active`,
  `false` = unlocked/`Released`).  A call to `try_lock_until` is an
  observation event; unlocking by `NotifyStopUpdater` is a release event.
  `try_lock_until` succeeds exactly when the mutex is unlocked at the
  observation, and re-locks it; a failure before the deadline is a
  spurious wakeup, a failure at or after the deadline is a timeout.
* The worker loop is driven by an oracle: one `RoundOracle` per executed
  round, giving the `query_metadata_()` result, the instant the query call
  was issued, the instant `start` read by the loop after the callbacks, and
  the schedule of timer events during the bounded wait.  The loop produces
  a linear trace of events (`Ev`); store callbacks appear in the trace in
  invocation order.  The `config().VerboseLogging()` guarded LOG lines
  inside the worker write diagnostics to the log sink, not to the store,
  and are not part of this trace.
-/

namespace MetadataAgent

/-- `Logger::Severity` from src/logging.h. -/
inductive Severity where
  | DEBUG
  | INFO
  | WARNING
  | ERROR
deriving DecidableEq

/-- One `std::ostream`: characters already pushed to the device (`flushed`)
and characters still sitting in the stream buffer (`pending`). -/
structure OStream where
  flushed : String
  pending : String
deriving DecidableEq

/-- All characters ever inserted into the stream, flushed or not. -/
def streamTotal (o : OStream) : String := o.flushed ++ o.pending

/-- `std::ostream::flush`: move the buffer to the device. -/
def flushStream (o : OStream) : OStream := ⟨o.flushed ++ o.pending, ""⟩

/-- The world a `LogStream` acts on: a supply of `std::ostream` objects
addressed by an identifier, and the identifier held by the sink's `out_`
pointer. -/
structure LogWorld where
  streams : Nat → OStream
  out : Nat

/-- `LogStream::write` from src/logging.h: under the mutex, execute
`(*out_) << line << std::endl` — insert `line` and a newline into the
current target and flush it.  The mutual exclusion of the
`std::lock_guard` is modelled by the call being a single atomic state
transition. -/
def write (w : LogWorld) (line : String) : LogWorld :=
  { w with
    streams := fun i =>
      if i = w.out then
        ⟨(w.streams w.out).flushed ++ (w.streams w.out).pending ++ line ++ "\n", ""⟩
      else w.streams i }

/-- `LogStream::set_stream` from src/logging.h: `out_->flush(); out_ = &out`. -/
def set_stream (w : LogWorld) (newOut : Nat) : LogWorld :=
  { streams := fun i => if i = w.out then flushStream (w.streams w.out) else w.streams i,
    out := newOut }

/-- Does `pat` occur at the head of the list? -/
def beginsWith : List Char → List Char → Bool
  | [], _ => true
  | _ :: _, [] => false
  | p :: ps, c :: cs => p = c && beginsWith ps cs

/-- Fuel-indexed worker for `replaceChars` (structural recursion so that
the kernel can evaluate it on concrete strings). -/
def replaceCharsAux (pat repl : List Char) : Nat → List Char → List Char
  | 0, l => l
  | _ + 1, [] => []
  | fuel + 1, c :: cs =>
    if beginsWith pat (c :: cs) then
      repl ++ replaceCharsAux pat repl fuel ((c :: cs).drop pat.length)
    else
      c :: replaceCharsAux pat repl fuel cs

/-- Replace every occurrence of `pat` by `repl`, left to right. -/
def replaceChars (pat repl l : List Char) : List Char :=
  if pat = [] then l else replaceCharsAux pat repl l.length l

/-- Modelled from the spec: `format::Substitute` (format.h is not under
src/).  The spec describes the error message as "constructed by template
substitution (e.g., "Polling period \x7bperiod\x7ds cannot be negative" with the
actual value substituted)"; in the template literal that src/updater.cc
passes, a placeholder named `k` is written as `k` between doubled braces,
and each `(k, v)` parameter pair replaces that placeholder by `v`. -/
def formatSubstitute (templ : String) (params : List (String × String)) : String :=
  params.foldl
    (fun acc kv =>
      String.mk (replaceChars ("\x7b\x7b" ++ kv.1 ++ "\x7d\x7d").data kv.2.data acc.data))
    templ

/-- Modelled from the spec: `format::str` (format.h is not under src/)
renders "the actual value"; the period is rendered exactly as a rational
number in seconds. -/
def formatStr (q : ℚ) : String := toString q

/-- `ConfigurationValidationError` carried out of `Start()`. -/
structure ConfigurationValidationError where
  message : String
deriving DecidableEq

/-- The mutable state of one `PollingMetadataUpdater` that the embedded
operations touch: its name, the polling period `period_` (seconds), the
`timer_` timed mutex (`true` = locked) and whether `reporter_thread_` is
joinable (a live worker thread exists). -/
structure PollingState where
  name : String
  period : ℚ
  timerLocked : Bool
  threadJoinable : Bool
deriving DecidableEq

/-- `PollingMetadataUpdater::ValidateStaticConfiguration` from
src/updater.cc: throw iff `period_ < time::seconds::zero()`, with the
substituted message. -/
def validateStaticConfiguration (period : ℚ) : Except ConfigurationValidationError Unit :=
  if period < 0 then
    Except.error
      ⟨formatSubstitute "Polling period \x7b\x7bperiod\x7d\x7ds cannot be negative"
        [("period", formatStr period)]⟩
  else Except.ok ()

/-- `PollingMetadataUpdater::ShouldStartUpdater` from src/updater.cc:
`period_ > time::seconds::zero()`. -/
def shouldStartUpdater (period : ℚ) : Bool := decide (0 < period)

/-- `PollingMetadataUpdater::StartUpdater` from src/updater.cc:
`timer_.lock()` and spawn `reporter_thread_` running `PollForMetadata`. -/
def startUpdater (s : PollingState) : PollingState :=
  { s with timerLocked := true, threadJoinable := true }

/-- `PollingMetadataUpdater::NotifyStopUpdater` from src/updater.cc:
`timer_.unlock()`.  It does not join the worker thread. -/
def notifyStopUpdater (s : PollingState) : PollingState :=
  { s with timerLocked := false }

/-- `MetadataUpdater::NotifyStop` from src/updater.cc: delegate to
`NotifyStopUpdater()`. -/
def notifyStop (s : PollingState) : PollingState := notifyStopUpdater s

/-- `PollingMetadataUpdater::~PollingMetadataUpdater` from src/updater.cc:
`if (reporter_thread_.joinable()) reporter_thread_.join();` — it joins
the worker (blocking until the worker exits) and touches nothing else;
in particular it never unlocks `timer_`. -/
def destructor (s : PollingState) : PollingState :=
  if s.threadJoinable then { s with threadJoinable := false } else s

/-- Observable events of the embedded program, in trace order.
`queryCall`, `resourceUpdate`, `metadataUpdate`, `tick` and `stopExit`
are emitted by the worker loop; the rest by `Start()`.  `α` is the opaque
`ResourceMetadata` payload type. -/
inductive Ev (α : Type) where
  | queryCall : List α → Ev α
  | resourceUpdate : α → Ev α
  | metadataUpdate : α → Ev α
  | tick : Ev α
  | stopExit : Ev α
  | validateStatic : Ev α
  | validateDynamic : Ev α
  | checkShouldRun : Bool → Ev α
  | startRunning : Ev α
  | log : Severity → String → Ev α
deriving DecidableEq

/-- `MetadataUpdater::Start` from src/updater.cc, instantiated with the
`PollingMetadataUpdater` hooks:

* `ValidateStaticConfiguration()`; on throw, propagate;
* `if (ShouldStartUpdater())`: `ValidateDynamicConfiguration()` (declared
  in the updater.h header, which is not under src/ — passed in as the
  parameter `vd`), then `StartUpdater()`;
* `else`: `LOG(INFO) << "Not starting " << name_`.

The result is the state after the call, the trace of calls made, and the
propagated error if any. -/
def start (α : Type) (s : PollingState) (vd : Except ConfigurationValidationError Unit) :
    PollingState × List (Ev α) × Option ConfigurationValidationError :=
  match validateStaticConfiguration s.period with
  | Except.error e => (s, [Ev.validateStatic], some e)
  | Except.ok _ =>
    if shouldStartUpdater s.period then
      match vd with
      | Except.error e =>
        (s, [Ev.validateStatic, Ev.checkShouldRun true, Ev.validateDynamic], some e)
      | Except.ok _ =>
        (startUpdater s,
         [Ev.validateStatic, Ev.checkShouldRun true, Ev.validateDynamic, Ev.startRunning],
         none)
    else
      (s, [Ev.validateStatic, Ev.checkShouldRun false,
           Ev.log Severity.INFO ("Not starting " ++ s.name)], none)

/-- Events acting on the `timer_` timed mutex during one bounded wait of
the worker loop: `release` is `timer_.unlock()` performed concurrently by
`NotifyStopUpdater`; `attempt now` is a return of
`timer_.try_lock_until(wakeup)` observed at clock reading `now`. -/
inductive WEvent (T : Type) where
  | release : WEvent T
  | attempt : T → WEvent T
deriving DecidableEq

/-- The bounded cancellation wait of `PollingMetadataUpdater::PollForMetadata`
(src/updater.cc, the inner `while (done && !timer_.try_lock_until(wakeup))`
loop), driven by a schedule of timer events:

* a `release` unlocks the mutex;
* an `attempt now` on an unlocked mutex acquires it (the `try_lock_until`
  call returns `true`): the wait ends signalling stop (`done` stays
  `true`), with the mutex locked again;
* an `attempt now` on a locked mutex returns `false`: if `now < wakeup`
  the code treats it as a spurious wakeup (`continue`) and re-issues the
  wait with the same `wakeup`; otherwise the deadline has elapsed and the
  wait ends signalling a tick (`done := false`), the mutex still locked.

The result is `some (stop, now, lockedAfter)` when the schedule decides
the wait, `none` when the schedule ran out with the wait still pending. -/
def waitRun (wakeup : T) [LinearOrder T] (locked : Bool) :
    List (WEvent T) → Option (Bool × T × Bool)
  | [] => none
  | WEvent.release :: rest => waitRun wakeup false rest
  | WEvent.attempt now :: rest =>
    if locked then
      if now < wakeup then waitRun wakeup true rest
      else some (false, now, true)
    else some (true, now, true)

/-- Oracle for one round of the worker loop: the vector returned by
`query_metadata_()`, the instant the `query_metadata_()` call was issued,
the instant `start = high_resolution_clock::now()` read after the
callbacks, and the timer-event schedule of the bounded wait. -/
structure RoundOracle (T α : Type) where
  result : List α
  queryTime : T
  startTime : T
  wevents : List (WEvent T)
deriving DecidableEq

/-- The per-item callback sequence of one round of `PollForMetadata`
(src/updater.cc): `for (ResourceMetadata& result : result_vector) \x7b
UpdateResourceCallback(result); UpdateMetadataCallback(std::move(result)); \x7d`. -/
def itemEvents {α : Type} : List α → List (Ev α)
  | [] => []
  | m :: ms => Ev.resourceUpdate m :: Ev.metadataUpdate m :: itemEvents ms

/-- `PollingMetadataUpdater::PollForMetadata` from src/updater.cc, as a
trace over the round oracles.  Each round queries, runs the two callbacks
per item in order, computes `wakeup = start + period_` and performs the
bounded wait; a stop observation ends the loop (`done = true` at the
outer `while (!done)`), a timeout ticks and repeats the loop.  `locked`
is the state of `timer_` entering the round (`StartUpdater` locked it). -/
def pollRounds [LinearOrder T] [Add T] (period : T) (locked : Bool) :
    List (RoundOracle T α) → List (Ev α)
  | [] => []
  | r :: rest =>
    Ev.queryCall r.result ::
      (itemEvents r.result ++
        match waitRun (r.startTime + period) locked r.wevents with
        | some (true, _, _) => [Ev.stopExit]
        | some (false, _, lk) => Ev.tick :: pollRounds period lk rest
        | none => [])

/-- The instants at which the executed rounds issued their
`query_metadata_()` calls. -/
def queryTimes [LinearOrder T] [Add T] (period : T) (locked : Bool) :
    List (RoundOracle T α) → List T
  | [] => []
  | r :: rest =>
    r.queryTime ::
      (match waitRun (r.startTime + period) locked r.wevents with
       | some (false, _, lk) => queryTimes period lk rest
       | _ => [])

/-- Clock consistency of a run: within a round the `start` reading taken
after the callbacks is not earlier than the instant the query was issued,
and the next round's query is not issued before the instant at which the
current round's wait returned.  (That the wait only times out at or after
`wakeup` is a property of the code, proved below, not an assumption.) -/
def Wf [LinearOrder T] [Add T] (period : T) (locked : Bool) : List (RoundOracle T α) → Bool
  | [] => true
  | [r] => decide (r.queryTime ≤ r.startTime)
  | r :: r' :: rest =>
    decide (r.queryTime ≤ r.startTime) &&
      match waitRun (r.startTime + period) locked r.wevents with
      | some (false, t, lk) => decide (t ≤ r'.queryTime) && Wf period lk (r' :: rest)
      | _ => true

/-- Sample state with a negative period. -/
def negState : PollingState :=
  { name := "poller", period := -1, timerLocked := false, threadJoinable := false }

/-- Sample state with a positive period. -/
def posState : PollingState :=
  { name := "poller", period := 2, timerLocked := false, threadJoinable := false }

/-- Sample state with period zero. -/
def zeroState : PollingState :=
  { name := "poller", period := 0, timerLocked := false, threadJoinable := false }

/-- Sample running state: timer locked, worker thread live. -/
def runState : PollingState :=
  { name := "poller", period := 1, timerLocked := true, threadJoinable := true }

/-- Sample two-round oracle over integer time with period 5: round one
queries at 0, reads `start` at 1, times out at 6; round two queries at 7. -/
def sampleRounds : List (RoundOracle ℤ ℕ) :=
  [⟨[1], 0, 1, [WEvent.attempt 6]⟩, ⟨[], 7, 8, [WEvent.attempt 20]⟩]

/-- Sample one-round oracle whose query returns three items. -/
def sampleRound3 : RoundOracle ℤ ℕ := ⟨[1, 2, 3], 0, 1, [WEvent.attempt 6]⟩

/-- Sample one-round oracle whose query returns nothing. -/
def sampleRoundE : RoundOracle ℤ ℕ := ⟨[], 0, 1, [WEvent.attempt 6]⟩

/-- Sample log world: every stream empty, the sink targeting stream 0. -/
def sampleWorld : LogWorld := { streams := fun _ => ⟨"", ""⟩, out := 0 }

/-! ### Unfolding equations (definitional) -/

theorem pollRounds_cons {T α : Type} [LinearOrder T] [Add T] (period : T) (locked : Bool)
    (r : RoundOracle T α) (rest : List (RoundOracle T α)) :
    pollRounds period locked (r :: rest) =
      Ev.queryCall r.result ::
        (itemEvents r.result ++
          match waitRun (r.startTime + period) locked r.wevents with
          | some (true, _, _) => [Ev.stopExit]
          | some (false, _, lk) => Ev.tick :: pollRounds period lk rest
          | none => []) := rfl

theorem queryTimes_cons {T α : Type} [LinearOrder T] [Add T] (period : T) (locked : Bool)
    (r : RoundOracle T α) (rest : List (RoundOracle T α)) :
    queryTimes period locked (r :: rest) =
      r.queryTime ::
        (match waitRun (r.startTime + period) locked r.wevents with
         | some (false, _, lk) => queryTimes period lk rest
         | _ => []) := rfl

theorem queryTimes_head {T α : Type} [LinearOrder T] [Add T] (period : T) (locked : Bool)
    (r : RoundOracle T α) (rest : List (RoundOracle T α)) :
    (queryTimes period locked (r :: rest)).head? = some r.queryTime := rfl

theorem Wf_cons2 {T α : Type} [LinearOrder T] [Add T] (period : T) (locked : Bool)
    (r r' : RoundOracle T α) (rest : List (RoundOracle T α)) :
    Wf period locked (r :: r' :: rest) =
      (decide (r.queryTime ≤ r.startTime) &&
        match waitRun (r.startTime + period) locked r.wevents with
        | some (false, t, lk) => decide (t ≤ r'.queryTime) && Wf period lk (r' :: rest)
        | _ => true) := rfl

/-! ### Behaviour of the bounded wait -/

theorem waitRun_release_cons {T : Type} [LinearOrder T] (wakeup : T) (locked : Bool)
    (evs : List (WEvent T)) :
    waitRun wakeup locked (WEvent.release :: evs) = waitRun wakeup false evs := rfl

theorem waitRun_attempt_unlocked {T : Type} [LinearOrder T] (wakeup now : T)
    (evs : List (WEvent T)) :
    waitRun wakeup false (WEvent.attempt now :: evs) = some (true, now, true) := rfl

theorem waitRun_attempt_spurious {T : Type} [LinearOrder T] (wakeup now : T)
    (evs : List (WEvent T)) (h : now < wakeup) :
    waitRun wakeup true (WEvent.attempt now :: evs) = waitRun wakeup true evs := by
  simp [waitRun, h]

theorem waitRun_attempt_timeout {T : Type} [LinearOrder T] (wakeup now : T)
    (evs : List (WEvent T)) (h : ¬ now < wakeup) :
    waitRun wakeup true (WEvent.attempt now :: evs) = some (false, now, true) := by
  simp [waitRun, h]

theorem waitRun_stop_relocks {T : Type} [LinearOrder T] (wakeup : T) :
    ∀ (evs : List (WEvent T)) (locked : Bool) (t : T) (lk : Bool),
      waitRun wakeup locked evs = some (true, t, lk) → lk = true := by
  intro evs
  induction evs with
  | nil => intro locked t lk h; simp [waitRun] at h
  | cons e rest ih =>
    intro locked t lk h
    cases e with
    | release => exact ih false t lk h
    | attempt now =>
      cases locked with
      | false =>
        rw [waitRun_attempt_unlocked] at h
        simp only [Option.some.injEq, Prod.mk.injEq] at h
        exact h.2.2.symm
      | true =>
        by_cases hlt : now < wakeup
        · exact ih true t lk (by rwa [waitRun_attempt_spurious _ _ _ hlt] at h)
        · rw [waitRun_attempt_timeout _ _ _ hlt] at h
          simp only [Option.some.injEq, Prod.mk.injEq] at h
          exact h.2.2.symm

theorem waitRun_tick_relocks {T : Type} [LinearOrder T] (wakeup : T) :
    ∀ (evs : List (WEvent T)) (locked : Bool) (t : T) (lk : Bool),
      waitRun wakeup locked evs = some (false, t, lk) → lk = true := by
  intro evs
  induction evs with
  | nil => intro locked t lk h; simp [waitRun] at h
  | cons e rest ih =>
    intro locked t lk h
    cases e with
    | release => exact ih false t lk h
    | attempt now =>
      cases locked with
      | false =>
        rw [waitRun_attempt_unlocked] at h
        simp only [Option.some.injEq, Prod.mk.injEq] at h
        exact absurd h.1 (by simp)
      | true =>
        by_cases hlt : now < wakeup
        · exact ih true t lk (by rwa [waitRun_attempt_spurious _ _ _ hlt] at h)
        · rw [waitRun_attempt_timeout _ _ _ hlt] at h
          simp only [Option.some.injEq, Prod.mk.injEq] at h
          exact h.2.2.symm

theorem waitRun_timeout_ge {T : Type} [LinearOrder T] (wakeup : T) :
    ∀ (evs : List (WEvent T)) (locked : Bool) (t : T) (lk : Bool),
      waitRun wakeup locked evs = some (false, t, lk) → wakeup ≤ t := by
  intro evs
  induction evs with
  | nil => intro locked t lk h; simp [waitRun] at h
  | cons e rest ih =>
    intro locked t lk h
    cases e with
    | release => exact ih false t lk h
    | attempt now =>
      cases locked with
      | false =>
        rw [waitRun_attempt_unlocked] at h
        simp only [Option.some.injEq, Prod.mk.injEq] at h
        exact absurd h.1 (by simp)
      | true =>
        by_cases hlt : now < wakeup
        · exact ih true t lk (by rwa [waitRun_attempt_spurious _ _ _ hlt] at h)
        · rw [waitRun_attempt_timeout _ _ _ hlt] at h
          simp only [Option.some.injEq, Prod.mk.injEq] at h
          exact h.2.1 ▸ le_of_not_lt hlt

theorem waitRun_no_release {T : Type} [LinearOrder T] (wakeup : T) :
    ∀ (evs : List (WEvent T)) (t : T) (lk : Bool), WEvent.release ∉ evs →
      waitRun wakeup true evs ≠ some (true, t, lk) := by
  intro evs
  induction evs with
  | nil => intro t lk _ h; simp [waitRun] at h
  | cons e rest ih =>
    intro t lk hmem h
    cases e with
    | release => exact hmem (List.mem_cons_self _ _)
    | attempt now =>
      have hmem' : WEvent.release ∉ rest := fun hc => hmem (List.mem_cons_of_mem _ hc)
      by_cases hlt : now < wakeup
      · exact ih t lk hmem' (by rwa [waitRun_attempt_spurious _ _ _ hlt] at h)
      · rw [waitRun_attempt_timeout _ _ _ hlt] at h
        simp only [Option.some.injEq, Prod.mk.injEq] at h
        exact absurd h.1 (by simp)

/-! ### Round traces -/

theorem itemEvents_no_stop {α : Type} : ∀ (l : List α), Ev.stopExit ∉ itemEvents l := by
  intro l
  induction l with
  | nil => simp [itemEvents]
  | cons a as ih => simp [itemEvents, ih]

theorem pollRounds_no_stop {T α : Type} [LinearOrder T] [Add T] (period : T) :
    ∀ (rounds : List (RoundOracle T α)), (∀ r ∈ rounds, WEvent.release ∉ r.wevents) →
      Ev.stopExit ∉ pollRounds period true rounds := by
  intro rounds
  induction rounds with
  | nil => intro _; simp [pollRounds]
  | cons r rest ih =>
    intro h
    rw [pollRounds_cons]
    rcases hw : waitRun (r.startTime + period) true r.wevents with _ | ⟨b, t, lk⟩
    · simp [hw, itemEvents_no_stop r.result]
    · cases b with
      | true => exact absurd hw (waitRun_no_release _ _ _ _ (h r (List.mem_cons_self _ _)))
      | false =>
        have hlk : lk = true := waitRun_tick_relocks _ _ _ _ _ hw
        subst hlk
        have ih' := ih (fun r' hr' => h r' (List.mem_cons_of_mem _ hr'))
        simp [hw, itemEvents_no_stop r.result, ih']

theorem queryTimes_spacing {T α : Type} [LinearOrderedAddCommGroup T] (period : T) :
    ∀ (rounds : List (RoundOracle T α)) (locked : Bool),
      Wf period locked rounds = true →
      List.Chain' (fun a b => a + period ≤ b) (queryTimes period locked rounds) := by
  intro rounds
  induction rounds with
  | nil => intro locked _; simp [queryTimes]
  | cons r rest ih =>
    intro locked h
    cases rest with
    | nil =>
      rcases hw : waitRun (r.startTime + period) locked r.wevents with _ | ⟨b, t, lk⟩
      · simp [queryTimes_cons, hw]
      · cases b <;> simp [queryTimes_cons, hw, queryTimes]
    | cons r' rest' =>
      rw [Wf_cons2] at h
      rcases hw : waitRun (r.startTime + period) locked r.wevents with _ | ⟨b, t, lk⟩
      · simp [queryTimes_cons, hw]
      · cases b with
        | true => simp [queryTimes_cons, hw]
        | false =>
          rw [hw] at h
          simp only [Bool.and_eq_true, decide_eq_true_eq] at h
          obtain ⟨hqs, hle, hWf⟩ := h
          have hge : r.startTime + period ≤ t := waitRun_timeout_ge _ _ _ _ _ hw
          have hchain := ih lk hWf
          rw [queryTimes_cons, hw]
          refine List.chain'_cons'.2 ⟨?_, hchain⟩
          intro y hy
          rw [queryTimes_head] at hy
          simp only [Option.mem_def, Option.some.injEq] at hy
          subst hy
          calc r.queryTime + period ≤ r.startTime + period := add_le_add_right hqs period
            _ ≤ t := hge
            _ ≤ r'.queryTime := hle

/-! ### Claim theorems -/

/-- C2: for every period strictly less than zero, `Start()` fails with a
`ConfigurationValidationError` whose message substitutes the actual period
value into the template "Polling period \x7b\x7bperiod\x7d\x7ds cannot be
negative"; the failure is synchronous — the instance state is unchanged, so
no worker thread is created — and the trace of the call contains no store
callback and no thread spawn. -/
theorem start_negative_period_fails (α : Type) (s : PollingState)
    (vd : Except ConfigurationValidationError Unit) (h : s.period < 0) :
    start α s vd =
      (s, [Ev.validateStatic],
        some ⟨formatSubstitute "Polling period \x7b\x7bperiod\x7d\x7ds cannot be negative"
          [("period", formatStr s.period)]⟩) ∧
    (start α s vd).1 = s ∧
    (∀ m : α, Ev.resourceUpdate m ∉ (start α s vd).2.1) ∧
    (∀ m : α, Ev.metadataUpdate m ∉ (start α s vd).2.1) ∧
    Ev.startRunning ∉ (start α s vd).2.1 := by
  have hv : validateStaticConfiguration s.period =
      Except.error ⟨formatSubstitute "Polling period \x7b\x7bperiod\x7d\x7ds cannot be negative"
        [("period", formatStr s.period)]⟩ := by
    simp [validateStaticConfiguration, h]
  refine ⟨?_, ?_, ?_, ?_, ?_⟩ <;> simp [start, hv]

theorem start_negative_period_fails_witness :
    negState.period < 0 ∧
    start ℕ negState (Except.ok ()) =
      (negState, [Ev.validateStatic], some ⟨"Polling period -1s cannot be negative"⟩) := by
  constructor
  · decide
  · rw [(start_negative_period_fails ℕ negState (Except.ok ()) (by decide)).1]
    decide

/-- C5: `Start()` executes exactly these steps in order: static validation
first — an error propagates with the instance unchanged and nothing else
called; then `ShouldStartUpdater()`; if it is false, an info-level skip
notice is logged and the instance is left unchanged (no thread, no dynamic
validation); if it is true, dynamic validation runs (its error propagates
with the instance unchanged), then `StartUpdater()` runs, after which the
timer is locked and a worker thread exists. -/
theorem start_step_order (α : Type) (s : PollingState)
    (vd : Except ConfigurationValidationError Unit) :
    (∀ e, validateStaticConfiguration s.period = Except.error e →
      start α s vd = (s, [Ev.validateStatic], some e)) ∧
    (validateStaticConfiguration s.period = Except.ok () →
      shouldStartUpdater s.period = false →
      start α s vd =
        (s, [Ev.validateStatic, Ev.checkShouldRun false,
             Ev.log Severity.INFO ("Not starting " ++ s.name)], none)) ∧
    (validateStaticConfiguration s.period = Except.ok () →
      shouldStartUpdater s.period = true →
      (∀ e, vd = Except.error e →
        start α s vd =
          (s, [Ev.validateStatic, Ev.checkShouldRun true, Ev.validateDynamic], some e)) ∧
      (vd = Except.ok () →
        start α s vd =
          (startUpdater s,
           [Ev.validateStatic, Ev.checkShouldRun true, Ev.validateDynamic, Ev.startRunning],
           none) ∧
        (startUpdater s).threadJoinable = true ∧ (startUpdater s).timerLocked = true)) := by
  refine ⟨?_, ?_, ?_⟩
  · intro e he; simp [start, he]
  · intro hok hsr; simp [start, hok, hsr]
  · intro hok hsr
    refine ⟨?_, ?_⟩
    · intro e he; subst he; simp [start, hok, hsr]
    · intro he; subst he; exact ⟨by simp [start, hok, hsr], rfl, rfl⟩

theorem start_step_order_witness :
    validateStaticConfiguration posState.period = Except.ok () ∧
    shouldStartUpdater posState.period = true ∧
    start ℕ posState (Except.ok ()) =
      (startUpdater posState,
       [Ev.validateStatic, Ev.checkShouldRun true, Ev.validateDynamic, Ev.startRunning],
       none) :=
  ⟨rfl, by decide,
    (((start_step_order ℕ posState (Except.ok ())).2.2 rfl (by decide)).2 rfl).1⟩

/-- C6: with period zero, `ShouldStartUpdater()` is false (and in general it
is true exactly when the period is positive), `Start()` succeeds with no
error, the instance state is unchanged — so no worker thread is ever
spawned — and the trace contains no `query_metadata_()` call and no thread
spawn. -/
theorem zero_period_disabled (α : Type) (s : PollingState)
    (vd : Except ConfigurationValidationError Unit) (h : s.period = 0) :
    (∀ q : ℚ, shouldStartUpdater q = true ↔ 0 < q) ∧
    shouldStartUpdater s.period = false ∧
    (start α s vd).2.2 = none ∧
    (start α s vd).1 = s ∧
    (∀ res : List α, Ev.queryCall res ∉ (start α s vd).2.1) ∧
    Ev.startRunning ∉ (start α s vd).2.1 := by
  have hv : validateStaticConfiguration s.period = Except.ok () := by
    simp [validateStaticConfiguration, h]
  have hs : shouldStartUpdater s.period = false := by
    simp [shouldStartUpdater, h]
  refine ⟨fun q => by simp [shouldStartUpdater], hs, ?_, ?_, ?_, ?_⟩ <;> simp [start, hv, hs]

theorem zero_period_disabled_witness :
    zeroState.period = 0 ∧
    shouldStartUpdater zeroState.period = false ∧
    (start ℕ zeroState (Except.ok ())).2.2 = none ∧
    (start ℕ zeroState (Except.ok ())).1 = zeroState :=
  ⟨rfl, (zero_period_disabled ℕ zeroState (Except.ok ()) rfl).2.1,
    (zero_period_disabled ℕ zeroState (Except.ok ()) rfl).2.2.1,
    (zero_period_disabled ℕ zeroState (Except.ok ()) rfl).2.2.2.1⟩

/-- C8: `LogStream::write(line)` appends exactly `line` followed by a single
newline to the sink's current target (and to no other stream), and leaves
the target pointer unchanged; `LogStream::set_stream(newTarget)` first
flushes the current target's buffer and then swaps the pointer, so a write
issued after the swap leaves the old target untouched.  The call-level
atomicity of the model stands for the exclusive `std::lock_guard`. -/
theorem log_write_set_stream (w : LogWorld) (line : String) (n i : Nat) :
    streamTotal ((write w line).streams w.out) =
      streamTotal (w.streams w.out) ++ line ++ "\n" ∧
    (write w line).out = w.out ∧
    (i ≠ w.out → (write w line).streams i = w.streams i) ∧
    (set_stream w n).out = n ∧
    ((set_stream w n).streams w.out).pending = "" ∧
    ((set_stream w n).streams w.out).flushed = streamTotal (w.streams w.out) ∧
    (n ≠ w.out →
      (write (set_stream w n) line).streams w.out = (set_stream w n).streams w.out) := by
  refine ⟨?_, rfl, ?_, rfl, ?_, ?_, ?_⟩
  · simp [write, streamTotal]
  · intro hne; simp [write, hne]
  · simp [set_stream, flushStream]
  · simp [set_stream, flushStream, streamTotal]
  · intro hne
    have hne' : w.out ≠ n := fun hc => hne hc.symm
    simp [write, set_stream, hne']

theorem log_write_set_stream_witness :
    streamTotal ((write sampleWorld "hi").streams sampleWorld.out) =
      streamTotal (sampleWorld.streams sampleWorld.out) ++ "hi" ++ "\n" ∧
    (write sampleWorld "hi").streams 1 = sampleWorld.streams 1 ∧
    (set_stream sampleWorld 1).out = 1 :=
  ⟨(log_write_set_stream sampleWorld "hi" 1 1).1,
    (log_write_set_stream sampleWorld "hi" 1 1).2.2.1 (by decide),
    (log_write_set_stream sampleWorld "hi" 1 1).2.2.2.1⟩

/-- C9: when the bounded wait ends because `try_lock_until` succeeded (the
stop signal), the successful observation has re-acquired `timer_`: after
the worker exits on a stop request the mutex is locked (`Active`) again,
not left `Released`.  Concretely, a successful observation of the released
mutex returns with the lock state `true`. -/
theorem stop_observation_relocks {T : Type} [LinearOrder T] (wakeup t : T)
    (locked lk : Bool) (evs : List (WEvent T))
    (h : waitRun wakeup locked evs = some (true, t, lk)) :
    lk = true ∧
    ∀ (w now : T) (rest : List (WEvent T)),
      waitRun w false (WEvent.attempt now :: rest) = some (true, now, true) :=
  ⟨waitRun_stop_relocks wakeup evs locked t lk h, fun _ _ _ => rfl⟩

theorem stop_observation_relocks_witness :
    waitRun (5 : ℤ) false [WEvent.attempt 1] = some (true, 1, true) ∧ (true : Bool) = true :=
  ⟨by decide, (stop_observation_relocks 5 1 false true [WEvent.attempt 1] (by decide)).1⟩

/-- C1: the bounded cancellation wait of the poll loop returns "stop" iff
the timed mutex has been released.  In order of the clauses: with the mutex
held and no release in the schedule the wait never signals stop, and any
completion is a timeout at or after the deadline (no completion before the
deadline without a release); once the mutex is released, the next
`try_lock_until` observation returns stop immediately; a release event
merely moves the mutex to the released state; a failed observation before
the deadline (spurious wakeup) leaves the wait running with the same
deadline, never misread as a stop; a timeout yields a tick after which the
loop repeats from the query step (the continuation trace again starts with
a query call); with no release anywhere the trace never contains a stop
exit, so observing the release is the loop's only exit; and under clock
consistency consecutive query instants are spaced by at least the period. -/
theorem polling_wait_stop_iff_release :
    (∀ (T : Type) [LinearOrder T] (wakeup t : T) (lk : Bool) (evs : List (WEvent T)),
      WEvent.release ∉ evs → waitRun wakeup true evs ≠ some (true, t, lk)) ∧
    (∀ (T : Type) [LinearOrder T] (wakeup t : T) (b lk : Bool) (evs : List (WEvent T)),
      WEvent.release ∉ evs → waitRun wakeup true evs = some (b, t, lk) →
      b = false ∧ wakeup ≤ t) ∧
    (∀ (T : Type) [LinearOrder T] (wakeup now : T) (evs : List (WEvent T)),
      waitRun wakeup false (WEvent.attempt now :: evs) = some (true, now, true)) ∧
    (∀ (T : Type) [LinearOrder T] (wakeup : T) (locked : Bool) (evs : List (WEvent T)),
      waitRun wakeup locked (WEvent.release :: evs) = waitRun wakeup false evs) ∧
    (∀ (T : Type) [LinearOrder T] (wakeup now : T) (evs : List (WEvent T)),
      now < wakeup →
      waitRun wakeup true (WEvent.attempt now :: evs) = waitRun wakeup true evs) ∧
    (∀ (T α : Type) [LinearOrder T] [Add T] (period t : T) (lk : Bool)
        (r : RoundOracle T α) (rest : List (RoundOracle T α)),
      waitRun (r.startTime + period) true r.wevents = some (false, t, lk) →
      pollRounds period true (r :: rest) =
        Ev.queryCall r.result ::
          (itemEvents r.result ++ Ev.tick :: pollRounds period lk rest)) ∧
    (∀ (T α : Type) [LinearOrder T] [Add T] (period : T) (locked : Bool)
        (r : RoundOracle T α) (rest : List (RoundOracle T α)),
      (pollRounds period locked (r :: rest)).head? = some (Ev.queryCall r.result)) ∧
    (∀ (T α : Type) [LinearOrder T] [Add T] (period : T) (rounds : List (RoundOracle T α)),
      (∀ r ∈ rounds, WEvent.release ∉ r.wevents) →
      Ev.stopExit ∉ pollRounds period true rounds) ∧
    (∀ (T α : Type) [LinearOrderedAddCommGroup T] (period : T) (locked : Bool)
        (rounds : List (RoundOracle T α)),
      Wf period locked rounds = true →
      List.Chain' (fun a b => a + period ≤ b) (queryTimes period locked rounds)) := by
  refine ⟨?_, ?_, ?_, ?_, ?_, ?_, ?_, ?_, ?_⟩
  · intro T _ wakeup t lk evs hmem
    exact waitRun_no_release wakeup evs t lk hmem
  · intro T _ wakeup t b lk evs hmem heq
    cases b with
    | true => exact absurd heq (waitRun_no_release wakeup evs t lk hmem)
    | false => exact ⟨rfl, waitRun_timeout_ge wakeup evs true t lk heq⟩
  · intro T _ wakeup now evs
    exact waitRun_attempt_unlocked wakeup now evs
  · intro T _ wakeup locked evs
    exact waitRun_release_cons wakeup locked evs
  · intro T _ wakeup now evs hlt
    exact waitRun_attempt_spurious wakeup now evs hlt
  · intro T α _ _ period t lk r rest hw
    rw [pollRounds_cons, hw]
  · intro T α _ _ period locked r rest
    rw [pollRounds_cons]
    rfl
  · intro T α _ _ period rounds h
    exact pollRounds_no_stop period rounds h
  · intro T α _ period locked rounds h
    exact queryTimes_spacing period rounds locked h

theorem polling_wait_stop_iff_release_witness :
    (WEvent.release ∉ ([WEvent.attempt 6] : List (WEvent ℤ))) ∧
    waitRun (6 : ℤ) true [WEvent.attempt 6] ≠ some (true, 6, true) ∧
    Wf (5 : ℤ) true sampleRounds = true ∧
    List.Chain' (fun a b => a + (5 : ℤ) ≤ b) (queryTimes 5 true sampleRounds) := by
  refine ⟨by decide, ?_, by decide, ?_⟩
  · exact polling_wait_stop_iff_release.1 ℤ 6 6 true [WEvent.attempt 6] (by decide)
  · exact polling_wait_stop_iff_release.2.2.2.2.2.2.2.2 ℤ ℕ 5 true sampleRounds (by decide)

/-- C4: the first action of the worker is the query call — the trace of a
run begins with `queryCall`, with no wait before it — and a round whose
query returns `[a, b, c]` makes the store observe exactly
resource-update(a), metadata-update(a), resource-update(b),
metadata-update(b), resource-update(c), metadata-update(c), in that order:
the first seven trace events are fixed, and since the trace is one linear
sequence no two items and no two rounds overlap. -/
theorem poll_round_callback_order {T α : Type} [LinearOrder T] [Add T] (period : T)
    (a b c : α) (r : RoundOracle T α) (rest : List (RoundOracle T α))
    (h : r.result = [a, b, c]) :
    itemEvents r.result =
      [Ev.resourceUpdate a, Ev.metadataUpdate a, Ev.resourceUpdate b, Ev.metadataUpdate b,
       Ev.resourceUpdate c, Ev.metadataUpdate c] ∧
    (pollRounds period true (r :: rest)).take 7 =
      [Ev.queryCall [a, b, c], Ev.resourceUpdate a, Ev.metadataUpdate a,
       Ev.resourceUpdate b, Ev.metadataUpdate b, Ev.resourceUpdate c, Ev.metadataUpdate c] ∧
    (pollRounds period true (r :: rest)).head? = some (Ev.queryCall [a, b, c]) := by
  refine ⟨by simp [h, itemEvents], ?_, ?_⟩
  · rw [pollRounds_cons, h]
    simp [itemEvents]
  · rw [pollRounds_cons, h]
    rfl

theorem poll_round_callback_order_witness :
    sampleRound3.result = [1, 2, 3] ∧
    (pollRounds (5 : ℤ) true [sampleRound3]).take 7 =
      [Ev.queryCall [1, 2, 3], Ev.resourceUpdate 1, Ev.metadataUpdate 1,
       Ev.resourceUpdate 2, Ev.metadataUpdate 2, Ev.resourceUpdate 3, Ev.metadataUpdate 3] :=
  ⟨rfl, (poll_round_callback_order 5 1 2 3 sampleRound3 [] rfl).2.1⟩

/-- C10: in a round whose query returns the empty vector no store callback
runs (the per-item trace is empty), yet the round proceeds normally: the
worker computes the deadline `start + period_`, performs the bounded wait,
and a timeout — which occurs at or after that deadline — yields a tick
after which the loop continues with the next round; the empty result never
terminates the poll loop. -/
theorem empty_query_round_continues {T α : Type} [LinearOrder T] [Add T] (period t : T)
    (lk : Bool) (r : RoundOracle T α) (rest : List (RoundOracle T α))
    (h : r.result = [])
    (hw : waitRun (r.startTime + period) true r.wevents = some (false, t, lk)) :
    itemEvents r.result = ([] : List (Ev α)) ∧
    pollRounds period true (r :: rest) =
      Ev.queryCall [] :: Ev.tick :: pollRounds period lk rest ∧
    r.startTime + period ≤ t := by
  refine ⟨by simp [h, itemEvents], ?_, waitRun_timeout_ge _ _ _ _ _ hw⟩
  rw [pollRounds_cons, h, hw]
  simp [itemEvents]

theorem empty_query_round_continues_witness :
    sampleRoundE.result = [] ∧
    waitRun (sampleRoundE.startTime + (5 : ℤ)) true sampleRoundE.wevents =
      some (false, 6, true) ∧
    pollRounds (5 : ℤ) true [sampleRoundE] =
      Ev.queryCall [] :: Ev.tick :: pollRounds (5 : ℤ) true [] :=
  ⟨rfl, by decide, (empty_query_round_continues 5 6 true sampleRoundE [] rfl (by decide)).2.1⟩

/-- C3 counterexample: at a concrete running instance whose stop has not yet
been requested (`timer_` locked, worker live), the destructor leaves the
timer locked — it performs no cancellation request — refuting the claim
that destruction requests cancellation when it has not already been
requested. -/
theorem destructor_no_cancel_request_cex :
    ¬ ((destructor runState).timerLocked = false) := by decide

/-- C3 (amended): the destructor joins the worker when one is live,
blocking until it has exited (afterwards no joinable thread remains), but
it leaves the timer exactly as it was: it does not itself request
cancellation, so the worker only exits if `NotifyStop()` was called.
Provided `NotifyStop()` has been called first — the timer is released —
the worker's next `try_lock_until` observation succeeds, the in-flight
round is the last one (the trace ends with the stop exit right after that
round's callbacks), and the join therefore completes. -/
theorem destructor_joins_after_notify_stop {T α : Type} [LinearOrder T] [Add T]
    (s : PollingState) (period t : T) (r : RoundOracle T α)
    (rest : List (RoundOracle T α)) (evs : List (WEvent T))
    (hw : r.wevents = WEvent.attempt t :: evs) :
    (destructor s).timerLocked = s.timerLocked ∧
    (destructor s).threadJoinable = false ∧
    (notifyStop s).timerLocked = false ∧
    pollRounds period false (r :: rest) =
      Ev.queryCall r.result :: (itemEvents r.result ++ [Ev.stopExit]) := by
  refine ⟨?_, ?_, rfl, ?_⟩
  · by_cases h : s.threadJoinable <;> simp [destructor, h]
  · by_cases h : s.threadJoinable <;> simp [destructor, h]
  · rw [pollRounds_cons, hw, waitRun_attempt_unlocked]

theorem destructor_joins_after_notify_stop_witness :
    sampleRoundE.wevents = WEvent.attempt 6 :: [] ∧
    (destructor runState).threadJoinable = false ∧
    pollRounds (5 : ℤ) false [sampleRoundE] =
      Ev.queryCall [] :: (itemEvents ([] : List ℕ) ++ [Ev.stopExit]) :=
  ⟨rfl,
    (destructor_joins_after_notify_stop (α := ℕ) runState (5 : ℤ) 6 sampleRoundE [] []
      rfl).2.1,
    (destructor_joins_after_notify_stop (α := ℕ) runState (5 : ℤ) 6 sampleRoundE [] []
      rfl).2.2.2⟩

/-- C7 counterexample: `NotifyStop` does release the timer, but the release
does not persist through every subsequent state: after the worker's next
`try_lock_until` observation of the released mutex, the mutex is locked
again (the wait returns with lock state `true`), refuting "once the
primitive is released, it stays released in every subsequent state". -/
theorem release_not_persistent_cex :
    (notifyStop runState).timerLocked = false ∧
    waitRun (10 : ℤ) (notifyStop runState).timerLocked [WEvent.attempt 3] =
      some (true, 3, true) := by
  exact ⟨rfl, by decide⟩

/-- C7 (amended): `NotifyStop()` delegates to the concrete stop hook
`NotifyStopUpdater()` and returns without blocking for worker exit (the
thread handle is untouched); the stop hook sets the timer to `Released`;
and the release is level-triggered up to the worker's observation of it:
a released timer stays released across further release events, and the
worker's next `try_lock_until` observation returns stop — that observation
itself re-acquiring the mutex. -/
theorem notify_stop_level_triggered {T : Type} [LinearOrder T] (s : PollingState)
    (wakeup now : T) (evs : List (WEvent T)) :
    notifyStop s = notifyStopUpdater s ∧
    (notifyStop s).timerLocked = false ∧
    (notifyStop s).threadJoinable = s.threadJoinable ∧
    waitRun wakeup false (WEvent.release :: evs) = waitRun wakeup false evs ∧
    waitRun wakeup false (WEvent.attempt now :: evs) = some (true, now, true) :=
  ⟨rfl, rfl, rfl, rfl, rfl⟩

end MetadataAgent
